import Mathlib

/-!
Verification of the Futaba S.bus serial protocol decoder
(src/apps/px4io/sbus.c).

The embedding models the two entry points of the module:

* `sbus_decode` — the frame decoder (boundary-marker check, failsafe
  check, bit-matrix channel extraction, switch channels);
* `sbus_input`  — the byte-intake / frame-synchronizer routine.

Machine integers are modelled as `Nat` (all arithmetic in the module is
on unsigned values and never wraps: timestamps are monotonic 64-bit
counters and the byte-level operations are masked well below any bound).
The C global state becomes an explicit state record threaded through the
functions.  The compile-time constant `PX4IO_INPUT_CHANNELS` comes from
a header that is not part of the sources, so it is kept as an explicit
parameter `PIC` everywhere (the spec only says "up to 18 channels").
-/

def SBUS_FRAME_SIZE : Nat := 25
def SBUS_INPUT_CHANNELS : Nat := 18

/-- One entry of the S.bus decoder matrix: byte offset in the data
portion of the frame, right shift, mask, left shift. -/
structure SbusBitPick where
  byte : Nat
  rshift : Nat
  mask : Nat
  lshift : Nat
deriving DecidableEq, Repr

/-- The downstream `system_state` fields written by the decoder. -/
structure SystemState where
  rc_channels : Nat
  rc_channel_data : Nat → Nat
  rc_channels_timestamp : Nat
  fmu_report_due : Bool

/-- The module-level mutable state of sbus.c: `last_rx_time`,
`last_frame_time`, the 25-byte accumulation buffer `frame`,
`partial_frame_count` (here `accum_count`, renamed because of naming
restrictions of the verification toolchain), `sbus_frame_drops`, and the
shared `system_state`. -/
structure SbusState where
  last_rx_time : Nat
  last_frame_time : Nat
  frame : List Nat
  accum_count : Nat
  sbus_frame_drops : Nat
  system_state : SystemState

/-- The S.bus decoder matrix `sbus_decoder[18][3]`.  The C initializer
lists 16 rows; the remaining two rows of the static array are
zero-initialized. -/
def sbus_decoder : List (List SbusBitPick) := [
  /-  0 -/ [⟨0, 0, 0xff, 0⟩, ⟨1, 0, 0x07, 8⟩, ⟨0, 0, 0x00, 0⟩],
  /-  1 -/ [⟨1, 3, 0x1f, 0⟩, ⟨2, 0, 0x3f, 5⟩, ⟨0, 0, 0x00, 0⟩],
  /-  2 -/ [⟨2, 6, 0x03, 0⟩, ⟨3, 0, 0xff, 2⟩, ⟨4, 0, 0x01, 10⟩],
  /-  3 -/ [⟨4, 1, 0x7f, 0⟩, ⟨5, 0, 0x0f, 7⟩, ⟨0, 0, 0x00, 0⟩],
  /-  4 -/ [⟨5, 4, 0x0f, 0⟩, ⟨6, 0, 0x7f, 4⟩, ⟨0, 0, 0x00, 0⟩],
  /-  5 -/ [⟨6, 7, 0x01, 0⟩, ⟨7, 0, 0xff, 1⟩, ⟨8, 0, 0x03, 9⟩],
  /-  6 -/ [⟨8, 2, 0x3f, 0⟩, ⟨9, 0, 0x1f, 6⟩, ⟨0, 0, 0x00, 0⟩],
  /-  7 -/ [⟨9, 5, 0x07, 0⟩, ⟨10, 0, 0xff, 3⟩, ⟨0, 0, 0x00, 0⟩],
  /-  8 -/ [⟨11, 0, 0xff, 0⟩, ⟨12, 0, 0x07, 8⟩, ⟨0, 0, 0x00, 0⟩],
  /-  9 -/ [⟨12, 3, 0x1f, 0⟩, ⟨13, 0, 0x3f, 5⟩, ⟨0, 0, 0x00, 0⟩],
  /- 10 -/ [⟨13, 6, 0x03, 0⟩, ⟨14, 0, 0xff, 2⟩, ⟨15, 0, 0x01, 10⟩],
  /- 11 -/ [⟨15, 1, 0x7f, 0⟩, ⟨16, 0, 0x0f, 7⟩, ⟨0, 0, 0x00, 0⟩],
  /- 12 -/ [⟨16, 4, 0x0f, 0⟩, ⟨17, 0, 0x7f, 4⟩, ⟨0, 0, 0x00, 0⟩],
  /- 13 -/ [⟨17, 7, 0x01, 0⟩, ⟨18, 0, 0xff, 1⟩, ⟨19, 0, 0x03, 9⟩],
  /- 14 -/ [⟨19, 2, 0x3f, 0⟩, ⟨20, 0, 0x1f, 6⟩, ⟨0, 0, 0x00, 0⟩],
  /- 15 -/ [⟨20, 5, 0x07, 0⟩, ⟨21, 0, 0xff, 3⟩, ⟨0, 0, 0x00, 0⟩],
  /- 16 -/ [⟨0, 0, 0x00, 0⟩, ⟨0, 0, 0x00, 0⟩, ⟨0, 0, 0x00, 0⟩],
  /- 17 -/ [⟨0, 0, 0x00, 0⟩, ⟨0, 0, 0x00, 0⟩, ⟨0, 0, 0x00, 0⟩]]

/-- One bit-pick of the inner loop of the channel-extraction loop:
`piece = ((frame[1 + byte] >> rshift) & mask) << lshift`. -/
def pickPiece (frame : List Nat) (p : SbusBitPick) : Nat :=
  ((frame.getD (1 + p.byte) 0 >>> p.rshift) &&& p.mask) <<< p.lshift

/-- The channel-extraction loop of `sbus_decode` for one channel:
`value = 0; for pick in 0..2: if mask != 0 then value |= piece`. -/
def channelValue (frame : List Nat) (channel : Nat) : Nat :=
  (sbus_decoder.getD channel []).foldl
    (fun value p => if p.mask ≠ 0 then value ||| pickPiece frame p else value) 0

/-- `chancount = (PX4IO_INPUT_CHANNELS > SBUS_INPUT_CHANNELS) ?
SBUS_INPUT_CHANNELS : PX4IO_INPUT_CHANNELS`.  `PX4IO_INPUT_CHANNELS` is
the parameter `PIC` (its header is not among the sources; the spec says
up to 18 channels are supported). -/
def chancount (PIC : Nat) : Nat :=
  if SBUS_INPUT_CHANNELS < PIC then SBUS_INPUT_CHANNELS else PIC

/-- The frame decoder `sbus_decode(frame_time)`, acting on the module
state.  Faithful to the source: bad boundary markers only bump
`sbus_frame_drops`; both failsafe bits set only zeroes
`system_state.rc_channels`; otherwise the channels are extracted with
the decoder matrix, the two switch channels are written when more than
17 channels are supported, and the bookkeeping fields are updated. -/
def sbus_decode (PIC : Nat) (s : SbusState) (frame_time : Nat) : SbusState :=
  if s.frame.getD 0 0 ≠ 0x0f ∨ s.frame.getD 24 0 ≠ 0x00 then
    { s with sbus_frame_drops := s.sbus_frame_drops + 1 }
  else if s.frame.getD 23 0 &&& (1 <<< 2) ≠ 0 ∧ s.frame.getD 23 0 &&& (1 <<< 3) ≠ 0 then
    { s with system_state := { s.system_state with rc_channels := 0 } }
  else
    let cc := chancount PIC
    let data1 := (List.range cc).foldl
      (fun d channel => Function.update d channel (channelValue s.frame channel / 2 + 998))
      s.system_state.rc_channel_data
    let data2 :=
      if 17 < cc then
        Function.update
          (Function.update data1 16 ((s.frame.getD 23 0 &&& (1 <<< 0)) * 1000 + 998))
          17 ((s.frame.getD 23 0 &&& (1 <<< 1)) * 1000 + 998)
      else data1
    { s with
      last_frame_time := frame_time,
      system_state :=
        { rc_channels := cc,
          rc_channel_data := data2,
          rc_channels_timestamp := frame_time,
          fmu_report_due := true } }

/-- The byte-intake routine `sbus_input()`.  `now` is the current
monotonic time; `avail` is the byte stream offered by the serial device
this call, of which `read` consumes at most `SBUS_FRAME_SIZE -
accum_count` bytes.  Returns the new state together with the `locked`
flag. -/
def sbus_input (PIC : Nat) (s : SbusState) (now : Nat) (avail : List Nat) :
    SbusState × Bool :=
  let s0 :=
    if 3000 < now - s.last_rx_time ∧ 0 < s.accum_count then
      { s with sbus_frame_drops := s.sbus_frame_drops + 1, accum_count := 0 }
    else s
  let taken := avail.take (SBUS_FRAME_SIZE - s0.accum_count)
  if taken.length < 1 then
    (s0, decide (now - s0.last_frame_time < 200000))
  else
    let s1 := { s0 with
      last_rx_time := now,
      frame := s0.frame.take s0.accum_count ++ taken
                 ++ s0.frame.drop (s0.accum_count + taken.length),
      accum_count := s0.accum_count + taken.length }
    if s1.accum_count < SBUS_FRAME_SIZE then
      (s1, decide (now - s1.last_frame_time < 200000))
    else
      let s2 := sbus_decode PIC s1 now
      let s3 := { s2 with accum_count := 0 }
      (s3, decide (now - s3.last_frame_time < 200000))

/-- Initial downstream state (all channel data zero). -/
def initSystemState : SystemState :=
  { rc_channels := 0, rc_channel_data := fun _ => 0,
    rc_channels_timestamp := 0, fmu_report_due := false }

/-- Initial module state, as established by `sbus_init`. -/
def initState : SbusState :=
  { last_rx_time := 0, last_frame_time := 0,
    frame := List.replicate 25 0, accum_count := 0,
    sbus_frame_drops := 0, system_state := initSystemState }

/-- Pairwise-disjointness check for a list of (shifted) masks. -/
def pairwiseDisjoint : List Nat → Bool
  | [] => true
  | m :: rest => rest.all (fun m2 => m &&& m2 == 0) && pairwiseDisjoint rest

/-- The shifted masks of the active (nonzero-mask) picks of a row. -/
def shiftedMasks (row : List SbusBitPick) : List Nat :=
  (row.filter (fun p => p.mask ≠ 0)).map (fun p => p.mask <<< p.lshift)

/-- A row is well-formed when its active picks write pairwise disjoint
bit ranges that all fit in bits 0..10. -/
def rowDisjointB (row : List SbusBitPick) : Bool :=
  pairwiseDisjoint (shiftedMasks row) &&
    (shiftedMasks row).all (fun m => m ≤ 2047)

/-! ### A synthetic encoder for the round-trip property

Modelled from the spec: the S.bus bit layout packs 16 channels of 11
bits each, least-significant bit first, into a contiguous 176-bit field
occupying the first 22 data bytes (frame bytes 1..22); frame byte 23
carries the flag bits (left clear here) and bytes 0 and 24 are the
boundary markers. -/

/-- Byte `j` of the little-endian byte decomposition of `B`. -/
def dataByte (B j : Nat) : Nat := (B >>> (8 * j)) % 256

/-- The 176-bit field holding 16 channel values of 11 bits each,
least-significant channel first. -/
def sbus_pack : List Nat → Nat
  | [] => 0
  | v :: rest => v % 2048 + 2048 * sbus_pack rest

/-- Modelled from the spec: the synthetic encoder producing a valid
25-byte frame (markers `0x0F`/`0x00`, flag byte 23 zero) whose data
bytes carry the packed 176-bit channel field. -/
def sbus_encode (l : List Nat) : List Nat :=
  let B := sbus_pack l
  [0x0f,
   dataByte B 0, dataByte B 1, dataByte B 2, dataByte B 3, dataByte B 4,
   dataByte B 5, dataByte B 6, dataByte B 7, dataByte B 8, dataByte B 9,
   dataByte B 10, dataByte B 11, dataByte B 12, dataByte B 13, dataByte B 14,
   dataByte B 15, dataByte B 16, dataByte B 17, dataByte B 18, dataByte B 19,
   dataByte B 20, dataByte B 21,
   0x00, 0x00]

/-- The bit width of a pick whose mask is of the form `2^w - 1`
(table form so that it reduces definitionally). -/
def pickWidth (p : SbusBitPick) : Nat :=
  match p.mask with
  | 0x01 => 1
  | 0x03 => 2
  | 0x07 => 3
  | 0x0f => 4
  | 0x1f => 5
  | 0x3f => 6
  | 0x7f => 7
  | 0xff => 8
  | _ => 0

/-- Structural well-formedness of a decoder-matrix row against the
contiguous bit layout: scanning the picks in order while skipping
zero-mask entries, each active pick must contribute the next
`pickWidth` bits of the 11-bit window starting at stream bit `s`,
reading them from bits `rshift ..` of data byte `byte` (all within one
byte), and the row must cover exactly 11 bits. `a` is the number of
bits already accumulated. -/
def rowSpecB : List SbusBitPick → Nat → Nat → Bool
  | [], _, a => a == 11
  | p :: rest, s, a =>
    if p.mask == 0 then rowSpecB rest s a
    else
      (p.mask == 2 ^ pickWidth p - 1) &&
      (decide (p.rshift + pickWidth p ≤ 8)) &&
      (8 * p.byte + p.rshift == s + a) &&
      (p.lshift == a) &&
      rowSpecB rest s (a + pickWidth p)

/-! ### Concrete test fixtures -/

/-- A valid frame with all-zero payload. -/
def zeroFrame : List Nat := [0x0f] ++ List.replicate 23 0 ++ [0]

/-- A valid frame whose byte 23 has only bit 1 (the channel-18 switch
bit) set. -/
def switch18Frame : List Nat := [0x0f] ++ List.replicate 22 0 ++ [0x02, 0]

/-- A valid frame whose byte 23 has both failsafe bits (2 and 3) set. -/
def fsBothFrame : List Nat := [0x0f] ++ List.replicate 22 0 ++ [0x0c, 0]

/-- A valid frame whose byte 23 has only the signal-lost bit (2) set. -/
def fsOneFrame : List Nat := [0x0f] ++ List.replicate 22 0 ++ [0x04, 0]

/-- A 25-byte buffer with a bad start marker. -/
def badFrame : List Nat := List.replicate 25 0

/-- The initial module state with a given frame buffer content. -/
def testFrameState (f : List Nat) : SbusState := { initState with frame := f }

/-- A state with 5 stale bytes accumulated at time 0. -/
def gapState : SbusState :=
  { initState with accum_count := 5, frame := List.replicate 25 7 }

/-! ### Characterization of a valid decode -/

lemma range_fold_update (f : Nat → Nat) (d : Nat → Nat) (n i : Nat) :
    ((List.range n).foldl (fun d ch => Function.update d ch (f ch)) d) i
      = if i < n then f i else d i := by
  induction n with
  | zero => simp
  | succ n ih =>
    rw [List.range_succ, List.foldl_append]
    simp only [List.foldl_cons, List.foldl_nil, Function.update_apply, ih]
    by_cases h1 : i = n
    · subst h1; rw [if_pos rfl, if_pos (by omega)]
    · rw [if_neg h1]
      by_cases h2 : i < n
      · rw [if_pos h2, if_pos (by omega)]
      · rw [if_neg h2, if_neg (by omega)]

/-- The guard of the boundary-marker branch is off for a valid frame. -/
lemma decode_markers_ok {s : SbusState}
    (h0 : s.frame.getD 0 0 = 0x0f) (h24 : s.frame.getD 24 0 = 0x00) :
    ¬(s.frame.getD 0 0 ≠ 0x0f ∨ s.frame.getD 24 0 ≠ 0x00) := by
  intro h
  cases h with
  | inl h => exact h h0
  | inr h => exact h h24

/-- On a frame with valid markers and not both failsafe bits set,
`sbus_decode` takes the main branch; explicit form of the result. -/
lemma decode_valid_eq (PIC : Nat) (s : SbusState) (t : Nat)
    (h0 : s.frame.getD 0 0 = 0x0f) (h24 : s.frame.getD 24 0 = 0x00)
    (hfs : ¬(s.frame.getD 23 0 &&& (1 <<< 2) ≠ 0 ∧ s.frame.getD 23 0 &&& (1 <<< 3) ≠ 0)) :
    sbus_decode PIC s t =
      { s with
        last_frame_time := t,
        system_state :=
          { rc_channels := chancount PIC,
            rc_channel_data :=
              (if 17 < chancount PIC then
                Function.update
                  (Function.update
                    ((List.range (chancount PIC)).foldl
                      (fun d channel =>
                        Function.update d channel (channelValue s.frame channel / 2 + 998))
                      s.system_state.rc_channel_data)
                    16 ((s.frame.getD 23 0 &&& (1 <<< 0)) * 1000 + 998))
                  17 ((s.frame.getD 23 0 &&& (1 <<< 1)) * 1000 + 998)
              else
                (List.range (chancount PIC)).foldl
                  (fun d channel =>
                    Function.update d channel (channelValue s.frame channel / 2 + 998))
                  s.system_state.rc_channel_data),
            rc_channels_timestamp := t,
            fmu_report_due := true } } := by
  rw [sbus_decode, if_neg (decode_markers_ok h0 h24), if_neg hfs]

/-- Pointwise description of the channel data written by a valid decode. -/
lemma decode_valid_data (PIC : Nat) (s : SbusState) (t : Nat)
    (h0 : s.frame.getD 0 0 = 0x0f) (h24 : s.frame.getD 24 0 = 0x00)
    (hfs : ¬(s.frame.getD 23 0 &&& (1 <<< 2) ≠ 0 ∧ s.frame.getD 23 0 &&& (1 <<< 3) ≠ 0))
    (i : Nat) :
    (sbus_decode PIC s t).system_state.rc_channel_data i =
      if 17 < chancount PIC ∧ i = 17 then (s.frame.getD 23 0 &&& (1 <<< 1)) * 1000 + 998
      else if 17 < chancount PIC ∧ i = 16 then (s.frame.getD 23 0 &&& (1 <<< 0)) * 1000 + 998
      else if i < chancount PIC then channelValue s.frame i / 2 + 998
      else s.system_state.rc_channel_data i := by
  rw [decode_valid_eq PIC s t h0 h24 hfs]
  simp only
  by_cases hcc : 17 < chancount PIC
  · simp only [hcc, if_pos, Function.update_apply, true_and]
    by_cases h17 : i = 17
    · simp [h17]
    · by_cases h16 : i = 16
      · simp [h16, h17]
      · simp [h16, h17, range_fold_update]
  · have h17 : ¬(17 < chancount PIC ∧ i = 17) := fun h => hcc h.1
    have h16 : ¬(17 < chancount PIC ∧ i = 16) := fun h => hcc h.1
    simp [hcc, h17, h16, range_fold_update]

lemma decode_valid_channels (PIC : Nat) (s : SbusState) (t : Nat)
    (h0 : s.frame.getD 0 0 = 0x0f) (h24 : s.frame.getD 24 0 = 0x00)
    (hfs : ¬(s.frame.getD 23 0 &&& (1 <<< 2) ≠ 0 ∧ s.frame.getD 23 0 &&& (1 <<< 3) ≠ 0)) :
    (sbus_decode PIC s t).system_state.rc_channels = chancount PIC ∧
    (sbus_decode PIC s t).last_frame_time = t := by
  rw [decode_valid_eq PIC s t h0 h24 hfs]
  exact ⟨rfl, rfl⟩

/-! ### Bounds on extracted channel values -/

lemma pickPiece_le (frame : List Nat) (p : SbusBitPick) :
    pickPiece frame p ≤ p.mask <<< p.lshift := by
  rw [pickPiece, Nat.shiftLeft_eq, Nat.shiftLeft_eq]
  exact Nat.mul_le_mul_right _ Nat.and_le_right

lemma fold_or_lt (frame : List Nat) (picks : List SbusBitPick) :
    ∀ v : Nat, v < 2048 →
    (∀ p ∈ picks, p.mask <<< p.lshift < 2048) →
    picks.foldl (fun value p => if p.mask ≠ 0 then value ||| pickPiece frame p else value) v
      < 2048 := by
  induction picks with
  | nil => intro v hv _; exact hv
  | cons p rest ih =>
    intro v hv hm
    simp only [List.foldl_cons]
    by_cases h : p.mask ≠ 0
    · rw [if_pos h]
      refine ih _ ?_ (fun q hq => hm q (List.mem_cons_of_mem p hq))
      have hp : pickPiece frame p < 2048 :=
        Nat.lt_of_le_of_lt (pickPiece_le frame p) (hm p (List.mem_cons_self p rest))
      have h2048 : (2048 : Nat) = 2 ^ 11 := by norm_num
      rw [h2048] at hv hp ⊢
      exact Nat.or_lt_two_pow hv hp
    · rw [if_neg h]
      exact ih v hv (fun q hq => hm q (List.mem_cons_of_mem p hq))

/-- For every channel of the decoder matrix (all rows), the raw
extracted value is below 2048 on any buffer: every pick's shifted mask
stays inside 11 bits. -/
lemma channelValue_lt (frame : List Nat) (c : Nat) :
    channelValue frame c < 2048 := by
  rw [channelValue]
  refine fold_or_lt frame _ 0 (by norm_num) ?_
  have hall : ∀ c' < 18, ∀ p ∈ sbus_decoder.getD c' [], p.mask <<< p.lshift < 2048 := by
    decide
  by_cases hc : c < 18
  · exact hall c hc
  · have : sbus_decoder.getD c [] = [] := by
      apply List.getD_eq_default
      have : sbus_decoder.length = 18 := by decide
      omega
    rw [this]
    intro p hp
    exact absurd hp (List.not_mem_nil p)


/-! ### Claim theorems: the decoder -/

/-- C1: For every 25-byte frame with correct boundary markers, decode
treats the frame as a connection-loss signal exactly when both failsafe
bits of byte 23 (bit 2 and bit 3) are set: in that case the reported
channel count becomes 0 and nothing else of the state changes (channel
data and good-frame timestamp untouched); if exactly one of the two
bits is set, the frame decodes normally: the channel count and the
good-frame timestamp are updated and the matrix channels are
populated. -/
theorem sbus_failsafe_and_policy (PIC : Nat) (s : SbusState) (t : Nat)
    (h0 : s.frame.getD 0 0 = 0x0f) (h24 : s.frame.getD 24 0 = 0x00) :
    ((s.frame.getD 23 0 &&& (1 <<< 2) ≠ 0 ∧ s.frame.getD 23 0 &&& (1 <<< 3) ≠ 0) →
      sbus_decode PIC s t =
        { s with system_state := { s.system_state with rc_channels := 0 } }) ∧
    (((s.frame.getD 23 0 &&& (1 <<< 2) ≠ 0 ∧ s.frame.getD 23 0 &&& (1 <<< 3) = 0) ∨
      (s.frame.getD 23 0 &&& (1 <<< 2) = 0 ∧ s.frame.getD 23 0 &&& (1 <<< 3) ≠ 0)) →
      (sbus_decode PIC s t).system_state.rc_channels = chancount PIC ∧
      (sbus_decode PIC s t).last_frame_time = t ∧
      ∀ i, i < chancount PIC → i < 16 →
        (sbus_decode PIC s t).system_state.rc_channel_data i
          = channelValue s.frame i / 2 + 998) := by
  constructor
  · intro hb
    rw [sbus_decode, if_neg (decode_markers_ok h0 h24), if_pos hb]
  · intro hx
    have hfs : ¬(s.frame.getD 23 0 &&& (1 <<< 2) ≠ 0 ∧ s.frame.getD 23 0 &&& (1 <<< 3) ≠ 0) := by
      rcases hx with ⟨h1, h2⟩ | ⟨h1, h2⟩
      · exact fun hc => hc.2 h2
      · exact fun hc => hc.1 h1
    refine ⟨(decode_valid_channels PIC s t h0 h24 hfs).1,
            (decode_valid_channels PIC s t h0 h24 hfs).2, ?_⟩
    intro i hi hi16
    rw [decode_valid_data PIC s t h0 h24 hfs]
    rw [if_neg (fun h => by omega), if_neg (fun h => by omega), if_pos hi]

/-- Witness for C1 at a concrete both-bits frame. -/
theorem sbus_failsafe_and_policy_witness :
    sbus_decode 18 (testFrameState fsBothFrame) 5 =
      { testFrameState fsBothFrame with
        system_state := { (testFrameState fsBothFrame).system_state with rc_channels := 0 } } :=
  (sbus_failsafe_and_policy 18 (testFrameState fsBothFrame) 5 (by decide) (by decide)).1
    (by decide)

/-- C4: For every 25-byte buffer failing a boundary-marker check,
decode increments the dropped-frame counter by exactly 1 and changes
nothing else: channel data, channel count and the last-good-frame
timestamp stay untouched and no frame is decoded. -/
theorem sbus_bad_marker_drop (PIC : Nat) (s : SbusState) (t : Nat)
    (h : s.frame.getD 0 0 ≠ 0x0f ∨ s.frame.getD 24 0 ≠ 0x00) :
    sbus_decode PIC s t = { s with sbus_frame_drops := s.sbus_frame_drops + 1 } := by
  rw [sbus_decode, if_pos h]

/-- Witness for C4 at a concrete bad-marker buffer. -/
theorem sbus_bad_marker_drop_witness :
    sbus_decode 18 (testFrameState badFrame) 7 =
      { testFrameState badFrame with
        sbus_frame_drops := (testFrameState badFrame).sbus_frame_drops + 1 } :=
  sbus_bad_marker_drop 18 (testFrameState badFrame) 7 (Or.inl (by decide))

/-- C9: On a valid buffer (markers good, not both failsafe bits set),
the decoded channel count and every decoded channel value are functions
of the buffer contents alone: two decode runs from arbitrary prior
states produce identical outputs. -/
theorem sbus_decode_deterministic (PIC : Nat) (s1 s2 : SbusState) (t1 t2 : Nat)
    (buf : List Nat) (hb1 : s1.frame = buf) (hb2 : s2.frame = buf)
    (h0 : buf.getD 0 0 = 0x0f) (h24 : buf.getD 24 0 = 0x00)
    (hfs : ¬(buf.getD 23 0 &&& (1 <<< 2) ≠ 0 ∧ buf.getD 23 0 &&& (1 <<< 3) ≠ 0)) :
    (sbus_decode PIC s1 t1).system_state.rc_channels
      = (sbus_decode PIC s2 t2).system_state.rc_channels ∧
    ∀ i, i < chancount PIC →
      (sbus_decode PIC s1 t1).system_state.rc_channel_data i
        = (sbus_decode PIC s2 t2).system_state.rc_channel_data i := by
  have h01 : s1.frame.getD 0 0 = 0x0f := by rw [hb1]; exact h0
  have h02 : s2.frame.getD 0 0 = 0x0f := by rw [hb2]; exact h0
  have h241 : s1.frame.getD 24 0 = 0x00 := by rw [hb1]; exact h24
  have h242 : s2.frame.getD 24 0 = 0x00 := by rw [hb2]; exact h24
  have hfs1 : ¬(s1.frame.getD 23 0 &&& (1 <<< 2) ≠ 0 ∧ s1.frame.getD 23 0 &&& (1 <<< 3) ≠ 0) := by
    rw [hb1]; exact hfs
  have hfs2 : ¬(s2.frame.getD 23 0 &&& (1 <<< 2) ≠ 0 ∧ s2.frame.getD 23 0 &&& (1 <<< 3) ≠ 0) := by
    rw [hb2]; exact hfs
  constructor
  · rw [(decode_valid_channels PIC s1 t1 h01 h241 hfs1).1,
        (decode_valid_channels PIC s2 t2 h02 h242 hfs2).1]
  · intro i hi
    rw [decode_valid_data PIC s1 t1 h01 h241 hfs1,
        decode_valid_data PIC s2 t2 h02 h242 hfs2, hb1, hb2]
    split_ifs <;> rfl

/-- Witness for C9: two different prior states, same buffer. -/
theorem sbus_decode_deterministic_witness :
    (sbus_decode 18 (testFrameState zeroFrame) 1).system_state.rc_channel_data 0
      = (sbus_decode 18
          { testFrameState zeroFrame with
            sbus_frame_drops := 7,
            system_state := { initSystemState with rc_channel_data := fun _ => 5555 } }
          2).system_state.rc_channel_data 0 :=
  (sbus_decode_deterministic 18 (testFrameState zeroFrame)
    { testFrameState zeroFrame with
      sbus_frame_drops := 7,
      system_state := { initSystemState with rc_channel_data := fun _ => 5555 } }
    1 2 zeroFrame rfl rfl (by decide) (by decide) (by decide)).2 0 (by decide)

/-- C2 counterexample: on the valid all-zero-payload frame the decoder
writes channel 0 = 0/2 + 998 = 998, which is outside the claimed range
[1000, 2000]. -/
theorem sbus_range_counterexample :
    ¬(1000 ≤ (sbus_decode 18 (testFrameState zeroFrame) 0).system_state.rc_channel_data 0 ∧
      (sbus_decode 18 (testFrameState zeroFrame) 0).system_state.rc_channel_data 0 ≤ 2000) := by
  decide

/-- C2 (amended): for every successfully decoded frame, every channel
value written to the output record is an integer in [998, 2998]; the
matrix-decoded channels (indices below 16) always lie in [998, 2021]. -/
theorem sbus_decode_range (PIC : Nat) (s : SbusState) (t : Nat)
    (h0 : s.frame.getD 0 0 = 0x0f) (h24 : s.frame.getD 24 0 = 0x00)
    (hfs : ¬(s.frame.getD 23 0 &&& (1 <<< 2) ≠ 0 ∧ s.frame.getD 23 0 &&& (1 <<< 3) ≠ 0))
    (i : Nat) (hi : i < chancount PIC) :
    998 ≤ (sbus_decode PIC s t).system_state.rc_channel_data i ∧
    (sbus_decode PIC s t).system_state.rc_channel_data i ≤ 2998 ∧
    (i < 16 → (sbus_decode PIC s t).system_state.rc_channel_data i ≤ 2021) := by
  rw [decode_valid_data PIC s t h0 h24 hfs]
  split_ifs with h17 h16
  · have hb : s.frame.getD 23 0 &&& (1 <<< 1) ≤ 2 := Nat.and_le_right
    omega
  · have hb : s.frame.getD 23 0 &&& (1 <<< 0) ≤ 1 := Nat.and_le_right
    omega
  · have hv := channelValue_lt s.frame i
    omega

/-- Witness for C2 (amended) on the all-zero-payload frame. -/
theorem sbus_decode_range_witness :
    998 ≤ (sbus_decode 18 (testFrameState zeroFrame) 0).system_state.rc_channel_data 0 ∧
    (sbus_decode 18 (testFrameState zeroFrame) 0).system_state.rc_channel_data 0 ≤ 2998 ∧
    (0 < 16 → (sbus_decode 18 (testFrameState zeroFrame) 0).system_state.rc_channel_data 0 ≤ 2021) :=
  sbus_decode_range 18 (testFrameState zeroFrame) 0 (by decide) (by decide) (by decide)
    0 (by decide)

/-- C3 (code bug): with 18 supported channels, on a valid frame whose
byte 23 has only bit 1 set, the decoder writes 2998 — not the 1998 the
spec requires — to channel index 17, because `frame[23] & (1 << 1)`
evaluates to 2 and is scaled by 1000 without being normalized to 0/1.
Channel index 16 (bit 0 clear) correctly receives 998. -/
theorem sbus_switch18_bug :
    (sbus_decode 18 (testFrameState switch18Frame) 0).system_state.rc_channel_data 17 = 2998 ∧
    (sbus_decode 18 (testFrameState switch18Frame) 0).system_state.rc_channel_data 16 = 998 := by
  decide

/-- C10: every decoder-matrix row for channels 0..15 is made of picks
whose shifted masks are pairwise disjoint and confined to bits 0..10,
and consequently for every buffer the raw extracted value is below 2048
and the normalized value lies in [998, 2021]. -/
theorem sbus_matrix_bits (c : Nat) (hc : c < 16) :
    rowDisjointB (sbus_decoder.getD c []) = true ∧
    ∀ frame : List Nat,
      channelValue frame c < 2048 ∧
      998 ≤ channelValue frame c / 2 + 998 ∧
      channelValue frame c / 2 + 998 ≤ 2021 := by
  constructor
  · have hall : ∀ c' < 16, rowDisjointB (sbus_decoder.getD c' []) = true := by decide
    exact hall c hc
  · intro frame
    have hv := channelValue_lt frame c
    exact ⟨hv, by omega, by omega⟩

/-- Witness for C10 at channel 0 and the all-zero-payload frame. -/
theorem sbus_matrix_bits_witness :
    rowDisjointB (sbus_decoder.getD 0 []) = true ∧
    (channelValue zeroFrame 0 < 2048 ∧
     998 ≤ channelValue zeroFrame 0 / 2 + 998 ∧
     channelValue zeroFrame 0 / 2 + 998 ≤ 2021) :=
  ⟨(sbus_matrix_bits 0 (by decide)).1, (sbus_matrix_bits 0 (by decide)).2 zeroFrame⟩

/-! ### Round-trip: bit-field arithmetic lemmas -/

/-- Merging the next `w` bits (pre-shifted into place) into an
accumulator that already holds the low `a` bits of `X`. -/
lemma or_pieces (X a w : Nat) :
    (X % 2 ^ a) ||| ((X >>> a) % 2 ^ w) <<< a = X % 2 ^ (a + w) := by
  have hlt : X % 2 ^ a < 2 ^ a := Nat.mod_lt _ (Nat.two_pow_pos a)
  have h1 : X % 2 ^ a ||| ((X >>> a) % 2 ^ w) <<< a
      = 2 ^ a * ((X >>> a) % 2 ^ w) + X % 2 ^ a := by
    rw [Nat.shiftLeft_eq, Nat.mul_comm ((X >>> a) % 2 ^ w) (2 ^ a), Nat.or_comm]
    exact (Nat.mul_add_lt_is_or hlt _).symm
  rw [h1, pow_add, Nat.mod_mul, Nat.shiftRight_eq_div_pow, Nat.add_comm]

/-- A masked pick out of one byte of the byte decomposition of `B`
extracts a window of the bit stream of `B`. -/
lemma pick_eq (B j r w : Nat) (h : r + w ≤ 8) :
    (dataByte B j >>> r) &&& (2 ^ w - 1) = (B >>> (8 * j + r)) % 2 ^ w := by
  rw [dataByte, Nat.and_pow_two_sub_one_eq_mod, Nat.shiftRight_add]
  rw [Nat.shiftRight_eq_div_pow ((B >>> (8 * j)) % 256), Nat.shiftRight_eq_div_pow (B >>> (8 * j))]
  have h256 : (256 : Nat) = 2 ^ r * 2 ^ (8 - r) := by
    rw [← pow_add]
    have hr : r + (8 - r) = 8 := by omega
    rw [hr]
    norm_num
  rw [h256, Nat.mod_mul, Nat.add_mul_div_left _ _ (Nat.two_pow_pos r),
      Nat.div_eq_of_lt (Nat.mod_lt _ (Nat.two_pow_pos r)), Nat.zero_add,
      Nat.mod_mod_of_dvd _ (pow_dvd_pow 2 (by omega))]

/-- A well-formed row never accumulates more than 11 bits. -/
lemma rowSpecB_le : ∀ (picks : List SbusBitPick) (s a : Nat),
    rowSpecB picks s a = true → a ≤ 11 := by
  intro picks
  induction picks with
  | nil =>
    intro s a h
    simp only [rowSpecB, beq_iff_eq] at h
    omega
  | cons p rest ih =>
    intro s a h
    simp only [rowSpecB] at h
    by_cases hm : p.mask == 0
    · rw [if_pos hm] at h
      exact ih s a h
    · rw [if_neg hm] at h
      simp only [Bool.and_eq_true] at h
      have := ih s (a + pickWidth p) h.2
      omega

/-- Running the channel-extraction fold over a well-formed row on a
frame whose data bytes are the byte decomposition of `B` yields the
11-bit window of `B` starting at stream bit `s`. -/
lemma fold_extract (B : Nat) (frame : List Nat)
    (hframe : ∀ j, j ≤ 21 → frame.getD (1 + j) 0 = dataByte B j) :
    ∀ (picks : List SbusBitPick) (s a v : Nat),
      s + 11 ≤ 176 →
      v = (B >>> s) % 2 ^ a →
      rowSpecB picks s a = true →
      picks.foldl (fun value p => if p.mask ≠ 0 then value ||| pickPiece frame p else value) v
        = (B >>> s) % 2 ^ 11 := by
  intro picks
  induction picks with
  | nil =>
    intro s a v _ hv hspec
    simp only [rowSpecB, beq_iff_eq] at hspec
    subst hspec
    rw [List.foldl_nil, hv]
  | cons p rest ih =>
    intro s a v hs hv hspec
    simp only [rowSpecB] at hspec
    rw [List.foldl_cons]
    by_cases hm : p.mask = 0
    · rw [if_neg (by simpa using hm)]
      rw [if_pos (by simpa using hm)] at hspec
      exact ih s a v hs hv hspec
    · rw [if_pos hm]
      rw [if_neg (by simpa using hm)] at hspec
      simp only [Bool.and_eq_true, beq_iff_eq, decide_eq_true_eq] at hspec
      obtain ⟨⟨⟨⟨hmask, hrw⟩, hpos⟩, hlsh⟩, hrest⟩ := hspec
      have haw : a + pickWidth p ≤ 11 := rowSpecB_le rest s (a + pickWidth p) hrest
      have hw1 : 1 ≤ pickWidth p := by
        by_contra hw
        have : pickWidth p = 0 := by omega
        rw [this] at hmask
        simp at hmask
        exact hm hmask
      have hbyte : p.byte ≤ 21 := by omega
      have hpp : pickPiece frame p = ((B >>> (s + a)) % 2 ^ pickWidth p) <<< a := by
        rw [pickPiece, hframe p.byte hbyte, hlsh, hmask,
            pick_eq B p.byte p.rshift (pickWidth p) hrw, hpos]
      rw [hpp, hv, Nat.shiftRight_add B s a, or_pieces]
      exact ih s (a + pickWidth p) _ hs rfl hrest

/-- The data bytes of an encoded frame are the byte decomposition of
the packed bit field. -/
lemma encode_getD (l : List Nat) : ∀ j, j ≤ 21 →
    (sbus_encode l).getD (1 + j) 0 = dataByte (sbus_pack l) j := by
  intro j hj
  interval_cases j <;> rfl

/-- The channel-extraction matrix recovers, for each channel `c < 16`,
the 11-bit window of the packed field starting at bit `11 * c`. -/
lemma channelValue_encode (l : List Nat) (c : Nat) (hc : c < 16) :
    channelValue (sbus_encode l) c = (sbus_pack l >>> (11 * c)) % 2 ^ 11 := by
  have hspec : ∀ c', c' < 16 → rowSpecB (sbus_decoder.getD c' []) (11 * c') 0 = true := by
    decide
  rw [channelValue]
  exact fold_extract (sbus_pack l) (sbus_encode l) (encode_getD l)
    (sbus_decoder.getD c []) (11 * c) 0 0 (by omega)
    (by rw [pow_zero, Nat.mod_one]) (hspec c hc)

/-- Extracting the `c`-th 11-bit digit of the packed field gives back
the `c`-th channel value. -/
lemma pack_digit : ∀ (l : List Nat) (c : Nat), (∀ v ∈ l, v < 2048) → c < l.length →
    (sbus_pack l >>> (11 * c)) % 2 ^ 11 = l.getD c 0 := by
  intro l
  induction l with
  | nil =>
    intro c _ hc
    simp at hc
  | cons v rest ih =>
    intro c hv hc
    cases c with
    | zero =>
      simp only [sbus_pack, Nat.mul_zero, Nat.shiftRight_zero, List.getD_cons_zero]
      have h2048 : (2 ^ 11 : Nat) = 2048 := by norm_num
      rw [h2048, Nat.add_mul_mod_self_left, Nat.mod_mod_of_dvd _ (dvd_refl 2048),
          Nat.mod_eq_of_lt (hv v (List.mem_cons_self v rest))]
    | succ c =>
      have hs : 11 * (c + 1) = 11 + 11 * c := by ring
      rw [hs, Nat.shiftRight_add]
      have hdiv : sbus_pack (v :: rest) >>> 11 = sbus_pack rest := by
        show (v % 2048 + 2048 * sbus_pack rest) >>> 11 = sbus_pack rest
        rw [Nat.shiftRight_eq_div_pow]
        have h2048 : (2 ^ 11 : Nat) = 2048 := by norm_num
        rw [h2048, Nat.add_mul_div_left _ _ (by norm_num : (0 : Nat) < 2048),
            Nat.div_eq_of_lt (Nat.mod_lt _ (by norm_num)), Nat.zero_add]
      rw [hdiv, ih c (fun x hx => hv x (List.mem_cons_of_mem v hx)) (by simpa using hc),
          List.getD_cons_succ]

/-- C5: Round-trip.  Packing any assignment of 11-bit channel values
(0..2047) for the 16 matrix-decoded channels into a 25-byte frame with
the S.bus bit layout (valid markers, failsafe bits clear) and decoding
it writes exactly `value / 2 + 998` for each such channel. -/
theorem sbus_roundtrip (PIC : Nat) (s : SbusState) (t : Nat) (l : List Nat)
    (hlen : l.length = 16) (hv : ∀ v ∈ l, v < 2048) (c : Nat) (hc : c < 16)
    (hcc : c < chancount PIC) :
    (sbus_decode PIC { s with frame := sbus_encode l } t).system_state.rc_channel_data c
      = l.getD c 0 / 2 + 998 := by
  have hframe : ({ s with frame := sbus_encode l } : SbusState).frame = sbus_encode l := rfl
  have h23 : (sbus_encode l).getD 23 0 = 0 := rfl
  have h0 : ({ s with frame := sbus_encode l } : SbusState).frame.getD 0 0 = 0x0f := rfl
  have h24 : ({ s with frame := sbus_encode l } : SbusState).frame.getD 24 0 = 0x00 := rfl
  have hfs : ¬(({ s with frame := sbus_encode l } : SbusState).frame.getD 23 0 &&& (1 <<< 2) ≠ 0 ∧
      ({ s with frame := sbus_encode l } : SbusState).frame.getD 23 0 &&& (1 <<< 3) ≠ 0) := by
    intro h
    exact h.1 (by rw [hframe, h23]; decide)
  rw [decode_valid_data PIC _ t h0 h24 hfs,
      if_neg (fun h => by omega), if_neg (fun h => by omega), if_pos hcc,
      hframe, channelValue_encode l c hc, pack_digit l c hv (by omega)]

/-- Witness for C5: all 16 channels at value 1024 decode to
1024 / 2 + 998 = 1510 (the end-to-end example of the spec). -/
theorem sbus_roundtrip_witness :
    (sbus_decode 18
      { initState with
        frame := sbus_encode (List.replicate 16 1024) } 0).system_state.rc_channel_data 0
    = 1510 := by
  rw [sbus_roundtrip 18 initState 0 (List.replicate 16 1024) (by decide) (by decide)
      0 (by decide) (by decide)]
  decide

/-! ### Claim theorems: the byte-intake routine -/

/-- C6: If more than 3ms elapsed since the last received byte while
1..24 bytes were accumulated, the byte-intake call drops the partial
frame first — the drop counter goes up by exactly 1 and the
accumulation count is reset — and then reads fresh bytes; when a full
25 bytes are available, the frame that gets decoded is exactly the next
25 bytes of the stream, independent of the discarded prefix. -/
theorem sbus_gap_resync (PIC : Nat) (s : SbusState) (now : Nat) (avail : List Nat)
    (hgap : 3000 < now - s.last_rx_time) (h1 : 1 ≤ s.accum_count)
    (h2 : s.accum_count ≤ 24) (hflen : s.frame.length = 25)
    (havail : 25 ≤ avail.length) :
    sbus_input PIC s now avail =
      ({ sbus_decode PIC
          { s with sbus_frame_drops := s.sbus_frame_drops + 1, accum_count := 25,
                   last_rx_time := now, frame := avail.take 25 } now
         with accum_count := 0 },
       decide (now -
         (sbus_decode PIC
           { s with sbus_frame_drops := s.sbus_frame_drops + 1, accum_count := 25,
                    last_rx_time := now, frame := avail.take 25 } now).last_frame_time
         < 200000)) := by
  have htlen : (avail.take (25 : Nat)).length = 25 := by
    rw [List.length_take]
    omega
  have hdrop : s.frame.drop 25 = [] := List.drop_eq_nil_of_le (by omega)
  rw [sbus_input, if_pos (⟨hgap, by omega⟩ :
    3000 < now - s.last_rx_time ∧ 0 < s.accum_count)]
  simp only [SBUS_FRAME_SIZE, Nat.sub_zero, List.take_zero, List.nil_append,
    Nat.zero_add, htlen, hdrop, List.append_nil]
  rw [if_neg (by omega), if_neg (by omega)]

/-- Witness for C6: a 3ms gap with 5 stale bytes accumulated, followed
by a full valid frame. -/
theorem sbus_gap_resync_witness :
    sbus_input 18 gapState 4000 zeroFrame =
      ({ sbus_decode 18
          { gapState with sbus_frame_drops := gapState.sbus_frame_drops + 1,
                          accum_count := 25, last_rx_time := 4000,
                          frame := zeroFrame.take 25 } 4000
         with accum_count := 0 },
       decide (4000 -
         (sbus_decode 18
           { gapState with sbus_frame_drops := gapState.sbus_frame_drops + 1,
                           accum_count := 25, last_rx_time := 4000,
                           frame := zeroFrame.take 25 } 4000).last_frame_time
         < 200000)) :=
  sbus_gap_resync 18 gapState 4000 zeroFrame (by decide) (by decide) (by decide)
    (by decide) (by decide)

/-- The returned lock flag always compares `now` against the
`last_frame_time` held after the call. -/
lemma sbus_input_snd (PIC : Nat) (s : SbusState) (now : Nat) (avail : List Nat) :
    (sbus_input PIC s now avail).2
      = decide (now - (sbus_input PIC s now avail).1.last_frame_time < 200000) := by
  simp only [sbus_input]
  split_ifs <;> rfl

/-- C7: the byte-intake routine returns `locked = true` exactly when
the timestamp of the most recent valid decoded frame is within 200ms of
`now` (strictly less than 200000 microseconds); in particular it
returns true whenever a valid decode in this very call stamped the
current time. -/
theorem sbus_locked_iff (PIC : Nat) (s : SbusState) (now : Nat) (avail : List Nat) :
    ((sbus_input PIC s now avail).2 = true ↔
      now - (sbus_input PIC s now avail).1.last_frame_time < 200000) ∧
    ((sbus_input PIC s now avail).1.last_frame_time = now →
      (sbus_input PIC s now avail).2 = true) := by
  constructor
  · rw [sbus_input_snd]
    simp
  · intro h
    rw [sbus_input_snd, h]
    simp

/-- Witness for C7 at a concrete idle call. -/
theorem sbus_locked_iff_witness :
    (sbus_input 18 initState 0 []).2 = true ↔
      0 - (sbus_input 18 initState 0 []).1.last_frame_time < 200000 :=
  (sbus_locked_iff 18 initState 0 []).1

/-- The decoder never touches the frame buffer itself. -/
lemma sbus_decode_frame (PIC : Nat) (s : SbusState) (t : Nat) :
    (sbus_decode PIC s t).frame = s.frame := by
  rw [sbus_decode]
  split_ifs <;> rfl

/-- C8: invariant of the byte-intake routine: starting from a state
with fewer than 25 accumulated bytes and a 25-byte buffer, the
accumulation count stays below 25 (reads are bounded by `25 - count`),
the buffer keeps length 25, and either no decode happened (downstream
state untouched) or the decoder was invoked on a state with exactly 25
accumulated bytes in a 25-byte buffer, after which the count was reset
to 0. -/
theorem sbus_accum_invariant (PIC : Nat) (s : SbusState) (now : Nat) (avail : List Nat)
    (hacc : s.accum_count < 25) (hflen : s.frame.length = 25) :
    (sbus_input PIC s now avail).1.accum_count < 25 ∧
    (sbus_input PIC s now avail).1.frame.length = 25 ∧
    ((sbus_input PIC s now avail).1.system_state = s.system_state ∨
     ∃ s2 : SbusState, s2.accum_count = 25 ∧ s2.frame.length = 25 ∧
       (sbus_input PIC s now avail).1 = { sbus_decode PIC s2 now with accum_count := 0 }) := by
  simp only [sbus_input, SBUS_FRAME_SIZE]
  split_ifs with hg hr hc hr2 hc2
  · dsimp only
    exact ⟨by omega, hflen, Or.inl rfl⟩
  · dsimp only at hc ⊢
    refine ⟨hc, ?_, Or.inl rfl⟩
    simp only [List.length_append, List.length_take, List.length_drop, hflen]
    omega
  · dsimp only at hc ⊢
    refine ⟨by omega, ?_, Or.inr ⟨_, ?_, ?_, rfl⟩⟩
    · rw [sbus_decode_frame]
      dsimp only
      simp only [List.length_append, List.length_take, List.length_drop, hflen]
      simp only [List.length_take] at hc
      omega
    · dsimp only
      simp only [List.length_take] at hc ⊢
      omega
    · dsimp only
      simp only [List.length_append, List.length_take, List.length_drop, hflen]
      simp only [List.length_take] at hc
      omega
  · dsimp only
    exact ⟨hacc, hflen, Or.inl rfl⟩
  · dsimp only at hc2 ⊢
    refine ⟨hc2, ?_, Or.inl rfl⟩
    simp only [List.length_append, List.length_take, List.length_drop, hflen]
    omega
  · dsimp only at hc2 ⊢
    refine ⟨by omega, ?_, Or.inr ⟨_, ?_, ?_, rfl⟩⟩
    · rw [sbus_decode_frame]
      dsimp only
      simp only [List.length_append, List.length_take, List.length_drop, hflen]
      simp only [List.length_take] at hc2
      omega
    · dsimp only
      simp only [List.length_take] at hc2 ⊢
      omega
    · dsimp only
      simp only [List.length_append, List.length_take, List.length_drop, hflen]
      simp only [List.length_take] at hc2
      omega

/-- Witness for C8 at a concrete idle call from the initial state. -/
theorem sbus_accum_invariant_witness :
    (sbus_input 18 initState 0 []).1.accum_count < 25 ∧
    (sbus_input 18 initState 0 []).1.frame.length = 25 ∧
    ((sbus_input 18 initState 0 []).1.system_state = initState.system_state ∨
     ∃ s2 : SbusState, s2.accum_count = 25 ∧ s2.frame.length = 25 ∧
       (sbus_input 18 initState 0 []).1 = { sbus_decode 18 s2 0 with accum_count := 0 }) :=
  sbus_accum_invariant 18 initState 0 [] (by decide) (by decide)
